import Mathlib

/-!
Shallow embedding of the MIDI playback engine (js/midi-player.js) and the
piano-roll renderer (js/piano-roll.js).

Times, durations and velocities are modelled as rationals.  The Tone.js
transport is modelled by the fields of `PlayerState` that the player code
reads and writes: the transport clock position (`transportSeconds`, reset
to 0 by `Tone.Transport.stop()` and set to the start offset by
`Tone.Transport.start(delay, offset)`), the registry of scheduled trigger
events (`scheduled`, mirroring `this.scheduledIds` together with the data
captured by each scheduled callback), and the animation-frame ticker
(`tickerArmed`, mirroring `this._animId != null`).  Externally observable
side effects (callbacks fired, transport commands, `sampler.releaseAll()`)
are returned as an `Event` trace.
-/

namespace MidiViz

/-- Source tag attached by `_extractNotes`: `'original'` when
`note.time < primeDuration`, `'continuation'` otherwise. -/
inductive Source where
  | original
  | continuation
deriving DecidableEq, Repr

/-- A note as produced by `MidiPlayer._extractNotes`. -/
structure Note where
  midi : Nat
  time : ℚ
  duration : ℚ
  velocity : ℚ
  source : Source
  trackIdx : Nat
deriving DecidableEq, Repr

/-- One entry of the scheduling registry: the id pushed onto
`this.scheduledIds` stands for a Transport event placed at absolute
position `pos` (the second argument of `Tone.Transport.schedule`) whose
callback will trigger the captured `note` for `triggerDur` seconds
(`Math.min(note.duration, 8)`). -/
structure ScheduledEvent where
  note : Note
  pos : ℚ
  triggerDur : ℚ
deriving DecidableEq, Repr

/-- Externally observable effects of the player: consumer callbacks and
transport/sampler commands, in the order the code performs them. -/
inductive Event where
  | loadStart
  | loadEnd
  | playState (isPlaying : Bool)
  | timeUpdate (t : ℚ) (d : ℚ)
  | releaseAll
  | transportStop
  | transportPause
  | transportStart (pos : ℚ)
deriving DecidableEq, Repr

/-- The mutable state of a `MidiPlayer` instance plus the relevant Tone.js
transport state. -/
structure PlayerState where
  notes : List Note
  duration : ℚ
  primeDuration : ℚ
  bpm : ℚ
  beatsPerBar : Nat
  isPlaying : Bool
  isPaused : Bool
  pausedTime : ℚ
  scheduled : List ScheduledEvent
  transportSeconds : ℚ
  tickerArmed : Bool
deriving DecidableEq, Repr

namespace MidiPlayer

/-- Body of the `for (const note of this.notes)` loop of `_scheduleFrom`:
notes with `note.time + note.duration <= fromTime` are skipped, every
other note is scheduled at absolute Transport position `note.time` with
trigger duration `Math.min(note.duration, 8)`, the id being pushed onto
the accumulator. -/
def scheduleLoop (fromTime : ℚ) : List Note → List ScheduledEvent → List ScheduledEvent
  | [], acc => acc
  | n :: rest, acc =>
    if n.time + n.duration ≤ fromTime then
      scheduleLoop fromTime rest acc
    else
      scheduleLoop fromTime rest (acc ++ [⟨n, n.time, min n.duration 8⟩])

/-- Model of `_clearScheduled`: every id in `this.scheduledIds` is revoked
with `Tone.Transport.clear` and the list is emptied (followed by
`Tone.Transport.cancel()`). -/
def clearScheduled (s : PlayerState) : PlayerState :=
  { s with scheduled := [] }

/-- Model of `_scheduleFrom(fromTime)`: clear, then run the scheduling
loop over `this.notes` starting from the emptied registry. -/
def scheduleFrom (s : PlayerState) (fromTime : ℚ) : PlayerState :=
  let s₁ := clearScheduled s
  { s₁ with scheduled := scheduleLoop fromTime s₁.notes s₁.scheduled }

/-- Model of `getCurrentTime()`. -/
def getCurrentTime (s : PlayerState) : ℚ :=
  if s.isPlaying then min s.transportSeconds s.duration else s.pausedTime

/-- Model of `play()`.  Returns the new state and the trace of observable
effects.  Guard: no-op when the note list is empty.  Otherwise the start
position is `_pausedTime` when paused and `0` otherwise, the transport is
stopped, events are rescheduled from the start position, the transport is
restarted there, and one `onPlayStateChange(true)` is fired. -/
def play (s : PlayerState) : PlayerState × List Event :=
  if s.notes.isEmpty then (s, [])
  else
    let startFrom := if s.isPaused then s.pausedTime else 0
    let s₁ := { s with transportSeconds := 0 }
    let s₂ := scheduleFrom s₁ startFrom
    let s₃ := { s₂ with transportSeconds := startFrom, isPlaying := true,
                        isPaused := false, tickerArmed := true }
    (s₃, [.transportStop, .transportStart startFrom, .playState true])

/-- Model of `pause()`.  Guard: no-op unless playing.  Records
`Tone.Transport.seconds` into `_pausedTime`, pauses the transport
(which freezes the clock but leaves registered events in place), calls
`sampler.releaseAll()`, flips the flags, fires one
`onPlayStateChange(false)` and stops the ticker. -/
def pause (s : PlayerState) : PlayerState × List Event :=
  if s.isPlaying then
    let s₁ := { s with pausedTime := s.transportSeconds }
    let s₂ := { s₁ with isPlaying := false, isPaused := true, tickerArmed := false }
    (s₂, [.transportPause, .releaseAll, .playState false])
  else (s, [])

/-- Model of `stop()`: stop the transport (clock back to 0), clear the
scheduling registry, release all sounding notes, reset the flags and
`_pausedTime`, fire `onPlayStateChange(false)` and `onTimeUpdate(0, duration)`,
and stop the ticker. -/
def stop (s : PlayerState) : PlayerState × List Event :=
  let s₁ := clearScheduled { s with transportSeconds := 0 }
  let s₂ := { s₁ with isPlaying := false, isPaused := false, pausedTime := 0,
                      tickerArmed := false }
  (s₂, [.transportStop, .releaseAll, .playState false, .timeUpdate 0 s.duration])

/-- Model of `seek(time)`: clamp to `[0, duration]`, stop the transport,
release all sounding notes, reschedule from the clamped time; if the
player was playing, restart the transport there, otherwise record the
clamped time as `_pausedTime`, mark paused, and fire `onTimeUpdate`. -/
def seek (s : PlayerState) (time : ℚ) : PlayerState × List Event :=
  let t := max 0 (min time s.duration)
  let wasPlaying := s.isPlaying
  let s₁ := { s with transportSeconds := 0 }
  let s₂ := scheduleFrom s₁ t
  if wasPlaying then
    ({ s₂ with transportSeconds := t, isPlaying := true, isPaused := false,
               tickerArmed := true },
     [.transportStop, .releaseAll, .transportStart t])
  else
    ({ s₂ with pausedTime := t, isPaused := true },
     [.transportStop, .releaseAll, .timeUpdate t s.duration])

/-- Model of one invocation of the `tick` closure installed by
`_startTicker`: bail out when not playing; otherwise report the current
time, and when it has reached the duration call `stop()` and do not
re-arm; otherwise re-arm.  The returned Bool is whether
`requestAnimationFrame(tick)` was called again. -/
def tick (s : PlayerState) : PlayerState × List Event × Bool :=
  if s.isPlaying then
    let t := getCurrentTime s
    if s.duration ≤ t then
      let r := stop s
      (r.1, .timeUpdate t s.duration :: r.2, false)
    else
      (s, [.timeUpdate t s.duration], true)
  else (s, [], false)

/-- A note event as decoded by the external MIDI parser (@tonejs/midi). -/
structure RawNote where
  midi : Nat
  time : ℚ
  duration : ℚ
  velocity : ℚ
deriving DecidableEq, Repr

/-- The decoded MIDI file data `loadTrack` reads: per-track note lists,
total duration, the header tempo list (bpm values) and the numerators of
the header time signatures. -/
structure MidiData where
  tracks : List (List RawNote)
  duration : ℚ
  tempos : List ℚ
  timeSignatures : List Nat
deriving DecidableEq, Repr

/-- Model of `_extractNotes(midi, primeDuration)`: flatten the per-track
note lists tagging each note with its track index and a source tag, then
sort ascending by onset time. -/
def extractNotes (midi : MidiData) (primeDuration : ℚ) : List Note :=
  let notes := (midi.tracks.enum.map (fun p =>
    p.2.map (fun n =>
      ({ midi := n.midi, time := n.time, duration := n.duration,
         velocity := n.velocity,
         source := if n.time < primeDuration then .original else .continuation,
         trackIdx := p.1 } : Note)))).flatten
  notes.mergeSort (fun a b => decide (a.time ≤ b.time))

/-- Model of `loadTrack(combinedUrl, primeUrl)`.  `fetched` is `none` when
fetching or decoding either source rejects (the awaited `Promise.all`
throws), otherwise the two decoded files.  The returned Bool is whether
the call returned normally (`false` models the rethrown error).  In both
cases `onLoadStart` is fired first, `stop()` runs next, and `onLoadEnd` is
fired last; the session fields are assigned only on success. -/
def loadTrack (s : PlayerState) (fetched : Option (MidiData × MidiData)) :
    PlayerState × List Event × Bool :=
  let r := stop s
  match fetched with
  | none => (r.1, Event.loadStart :: r.2 ++ [Event.loadEnd], false)
  | some (combinedMidi, primeMidi) =>
    let pd := primeMidi.duration
    let bpm := match combinedMidi.tempos with
      | [] => (120 : ℚ)
      | b :: _ => b
    let bpb := match combinedMidi.timeSignatures with
      | [] => 4
      | b :: _ => b
    ({ r.1 with primeDuration := pd,
                notes := extractNotes combinedMidi pd,
                duration := combinedMidi.duration,
                bpm := bpm, beatsPerBar := bpb },
     Event.loadStart :: r.2 ++ [Event.loadEnd], true)

end MidiPlayer

namespace PianoRoll

/-- Active-note test of `PianoRoll.render`:
`this.currentTime >= note.time && this.currentTime <= note.time + note.duration`. -/
def isActive (currentTime : ℚ) (n : Note) : Bool :=
  decide (n.time ≤ currentTime) && decide (currentTime ≤ n.time + n.duration)

/-- Idle-note alpha of `PianoRoll.render`:
`const vel = 0.4 + note.velocity * 0.6`, used as the hsla alpha channel. -/
def idleAlpha (n : Note) : ℚ :=
  0.4 + n.velocity * 0.6

/-- Fill alpha chosen by `PianoRoll.render` for a note: active notes use
alpha 1, idle notes use the velocity-derived alpha. -/
def fillAlpha (currentTime : ℚ) (n : Note) : ℚ :=
  if isActive currentTime n then 1 else idleAlpha n

end PianoRoll

/-- Concrete note used by the witnesses and counterexamples. -/
def n0 : Note :=
  { midi := 60, time := 0, duration := 2, velocity := 1/2,
    source := .original, trackIdx := 0 }

/-- A freshly loaded, stopped player holding the single note `n0`. -/
def s0 : PlayerState :=
  { notes := [n0], duration := 2, primeDuration := 0, bpm := 120,
    beatsPerBar := 4, isPlaying := false, isPaused := false, pausedTime := 0,
    scheduled := [], transportSeconds := 0, tickerArmed := false }

/-- The player `s0` one second into playback, with `n0` scheduled. -/
def s1 : PlayerState :=
  { s0 with isPlaying := true, scheduled := [⟨n0, 0, 2⟩], transportSeconds := 1 }

/-- Notes of `s1` used in the C8 witness: two idle notes of unequal velocity. -/
def n1 : Note :=
  { midi := 64, time := 20, duration := 1, velocity := 3/4,
    source := .continuation, trackIdx := 0 }

/-- The player `s0` playing with the transport clock past the duration,
as sampled by the ticker at the end of the piece. -/
def s2 : PlayerState :=
  { s0 with isPlaying := true, scheduled := [⟨n0, 0, 2⟩], transportSeconds := 3 }

namespace MidiPlayer

/-- The scheduling loop appends, in order, one event per note not yet
fully elapsed, at absolute position equal to the onset time and with the
capped duration. -/
theorem scheduleLoop_eq (fromTime : ℚ) (notes : List Note) (acc : List ScheduledEvent) :
    scheduleLoop fromTime notes acc =
      acc ++ (notes.filter (fun n => decide (fromTime < n.time + n.duration))).map
        (fun n => ⟨n, n.time, min n.duration 8⟩) := by
  induction notes generalizing acc with
  | nil => simp [scheduleLoop]
  | cons n rest ih =>
    by_cases h : n.time + n.duration ≤ fromTime
    · rw [scheduleLoop, if_pos h, ih, List.filter_cons_of_neg (by simpa using h)]
    · rw [scheduleLoop, if_neg h, ih,
        List.filter_cons_of_pos (by simpa using lt_of_not_le h)]
      simp

/-- Characterization of the scheduling registry after `_scheduleFrom`. -/
theorem scheduleFrom_scheduled (s : PlayerState) (fromTime : ℚ) :
    (scheduleFrom s fromTime).scheduled =
      (s.notes.filter (fun n => decide (fromTime < n.time + n.duration))).map
        (fun n => ⟨n, n.time, min n.duration 8⟩) := by
  simpa [scheduleFrom, clearScheduled] using
    scheduleLoop_eq fromTime s.notes []

/-- The note list is untouched by `_scheduleFrom`. -/
theorem scheduleFrom_notes (s : PlayerState) (fromTime : ℚ) :
    (scheduleFrom s fromTime).notes = s.notes := rfl

/-- The playing flag is untouched by `_scheduleFrom`. -/
theorem scheduleFrom_isPlaying (s : PlayerState) (fromTime : ℚ) :
    (scheduleFrom s fromTime).isPlaying = s.isPlaying := rfl

/-- The paused flag is untouched by `_scheduleFrom`. -/
theorem scheduleFrom_isPaused (s : PlayerState) (fromTime : ℚ) :
    (scheduleFrom s fromTime).isPaused = s.isPaused := rfl

/-- The paused time is untouched by `_scheduleFrom`. -/
theorem scheduleFrom_pausedTime (s : PlayerState) (fromTime : ℚ) :
    (scheduleFrom s fromTime).pausedTime = s.pausedTime := rfl

/-- The duration is untouched by `_scheduleFrom`. -/
theorem scheduleFrom_duration (s : PlayerState) (fromTime : ℚ) :
    (scheduleFrom s fromTime).duration = s.duration := rfl

/-- The transport clock is untouched by `_scheduleFrom`. -/
theorem scheduleFrom_transportSeconds (s : PlayerState) (fromTime : ℚ) :
    (scheduleFrom s fromTime).transportSeconds = s.transportSeconds := rfl

end MidiPlayer

open MidiPlayer PianoRoll

/-- C1 counterexample: the spec demands an audio-clock-relative offset of
max(0, onsetTime − fromTime) and, for notes already begun, a duration
truncated to onsetTime + duration − fromTime.  For the note (onset 0,
duration 2) rescheduled from fromTime = 1, the code registers the event at
absolute position 0 (relative offset −1, not clamped) with duration 2
(capped at 8, not truncated to 1). -/
theorem C1_scheduleFrom_spec_counterexample :
    ¬ (∀ e ∈ (scheduleFrom s0 1).scheduled,
         e.pos - 1 = max 0 (e.note.time - 1) ∧
         (e.note.time < 1 → e.triggerDur = e.note.time + e.note.duration - 1)) := by
  intro h
  have hn0 : n0 ∈ s0.notes.filter (fun n => decide ((1 : ℚ) < n.time + n.duration)) := by
    rw [List.mem_filter]
    exact ⟨by simp [s0], by norm_num [n0]⟩
  have hmem := List.mem_map_of_mem
    (fun n => (⟨n, n.time, min n.duration 8⟩ : ScheduledEvent)) hn0
  rw [← scheduleFrom_scheduled] at hmem
  have h2 := h _ hmem
  norm_num [n0] at h2

/-- C1 (amended): scheduleFrom(fromTime) discards all pending trigger
events and registers, for exactly those notes whose interval ends after
fromTime, one event at the absolute Transport position onsetTime (so the
relative offset onsetTime − fromTime is not clamped) with trigger duration
min(duration, 8) (not truncated for notes already begun). -/
theorem C1_scheduleFrom_absolute :
    ∀ (s : PlayerState) (fromTime : ℚ),
      (scheduleFrom s fromTime).scheduled =
        (s.notes.filter (fun n => decide (fromTime < n.time + n.duration))).map
          (fun n => ⟨n, n.time, min n.duration 8⟩) ∧
      ∀ e ∈ (scheduleFrom s fromTime).scheduled,
        e.pos = e.note.time ∧ e.triggerDur = min e.note.duration 8 ∧
        fromTime < e.note.time + e.note.duration := by
  intro s fromTime
  refine ⟨scheduleFrom_scheduled s fromTime, ?_⟩
  intro e he
  rw [scheduleFrom_scheduled] at he
  simp only [List.mem_map, List.mem_filter, decide_eq_true_eq] at he
  obtain ⟨n, ⟨_, hlt⟩, rfl⟩ := he
  exact ⟨rfl, rfl, hlt⟩

/-- C2 counterexample: the spec demands that after pause() zero scheduled
trigger events remain pending; the code leaves `scheduledIds` untouched
(it only pauses the transport), so pausing the playing state `s1`, which
holds one scheduled event, leaves that event registered. -/
theorem C2_pause_keeps_scheduled_counterexample :
    ¬ ((pause s1).1.scheduled = []) := by
  decide

/-- C2 (amended): pause() while playing records the transport clock as
the elapsed time, pauses the transport, explicitly releases all currently
sounding notes, fires one play-state notification, and leaves the
scheduled trigger events registered unchanged (they are cleared only by
the next play/seek/stop, never by pause itself). -/
theorem C2_pause_records_and_releases (s : PlayerState) (h : s.isPlaying = true) :
    (pause s).1.pausedTime = s.transportSeconds ∧
    (pause s).1.scheduled = s.scheduled ∧
    (pause s).1.isPlaying = false ∧
    (pause s).1.isPaused = true ∧
    (pause s).2 = [.transportPause, .releaseAll, .playState false] := by
  simp [pause, h]

/-- C2 witness: the amended pause contract instantiated at the playing
state `s1`. -/
theorem C2_pause_witness :
    s1.isPlaying = true ∧
    ((pause s1).1.pausedTime = s1.transportSeconds ∧
     (pause s1).1.scheduled = s1.scheduled ∧
     (pause s1).1.isPlaying = false ∧
     (pause s1).1.isPaused = true ∧
     (pause s1).2 = [.transportPause, .releaseAll, .playState false]) :=
  ⟨rfl, C2_pause_records_and_releases s1 rfl⟩

/-- C3 counterexample: the spec demands that play() while already playing
is a no-op with no additional play-state notification; on the playing
state `s1` the code changes the state (the transport is restarted from 0,
resetting the clock from 1) and emits another onPlayStateChange(true). -/
theorem C3_play_not_noop_counterexample :
    Event.playState true ∈ (play s1).2 ∧
    (play s1).1.transportSeconds ≠ s1.transportSeconds := by
  constructor
  · simp [play, s1, s0]
  · norm_num [play, s1, s0, scheduleFrom_transportSeconds]

/-- C3 (amended): play() while already playing (and not paused, with a
nonempty note list) is not a no-op: it restarts playback from time 0 —
the transport is stopped and restarted at position 0 and the trigger
events are rescheduled from 0 — and it emits an additional
onPlayStateChange(true) notification; the player remains playing and the
recorded paused time is untouched. -/
theorem C3_play_restarts_from_zero (s : PlayerState)
    (hp : s.isPlaying = true) (hq : s.isPaused = false) (hn : s.notes ≠ []) :
    (play s).1.transportSeconds = 0 ∧
    (play s).1.scheduled =
      (s.notes.filter (fun n => decide ((0 : ℚ) < n.time + n.duration))).map
        (fun n => ⟨n, n.time, min n.duration 8⟩) ∧
    (play s).2 = [.transportStop, .transportStart 0, .playState true] ∧
    (play s).1.isPlaying = true ∧
    (play s).1.pausedTime = s.pausedTime := by
  have he : s.notes.isEmpty = false := by
    cases hni : s.notes with
    | nil => exact absurd hni hn
    | cons a l => simp [hni]
  refine ⟨?_, ?_, ?_, ?_, ?_⟩ <;>
    simp [play, he, hq, scheduleFrom, clearScheduled, scheduleLoop_eq]

/-- C3 witness: the amended play contract instantiated at the playing
state `s1`. -/
theorem C3_play_restart_witness :
    (s1.isPlaying = true ∧ s1.isPaused = false ∧ s1.notes ≠ []) ∧
    ((play s1).1.transportSeconds = 0 ∧
     (play s1).1.scheduled =
       (s1.notes.filter (fun n => decide ((0 : ℚ) < n.time + n.duration))).map
         (fun n => ⟨n, n.time, min n.duration 8⟩) ∧
     (play s1).2 = [.transportStop, .transportStart 0, .playState true] ∧
     (play s1).1.isPlaying = true ∧
     (play s1).1.pausedTime = s1.pausedTime) :=
  ⟨⟨rfl, rfl, by simp [s1, s0]⟩,
   C3_play_restarts_from_zero s1 rfl rfl (by simp [s1, s0])⟩

/-- C4: while not playing, seek(t) immediately followed by
getCurrentTime() returns t clamped to [0, totalDuration]. -/
theorem C4_seek_then_currentTime (s : PlayerState) (t : ℚ)
    (h : s.isPlaying = false) :
    getCurrentTime (seek s t).1 = max 0 (min t s.duration) := by
  simp [seek, getCurrentTime, h, scheduleFrom_isPlaying]

/-- C4 witness: seeking the stopped state `s0` (duration 2) to 5 and
reading the current time yields the clamped value. -/
theorem C4_seek_witness :
    s0.isPlaying = false ∧
    getCurrentTime (seek s0 5).1 = max 0 (min 5 s0.duration) :=
  ⟨rfl, C4_seek_then_currentTime s0 5 rfl⟩

/-- C5: scheduleFrom is idempotent in the pending-event set: two
consecutive calls with the same time leave the same number of pending
trigger events as one call (in fact the same registry). -/
theorem C5_scheduleFrom_idempotent :
    ∀ (s : PlayerState) (t : ℚ),
      (scheduleFrom (scheduleFrom s t) t).scheduled.length =
        (scheduleFrom s t).scheduled.length := by
  intro s t
  rw [scheduleFrom_scheduled, scheduleFrom_scheduled, scheduleFrom_notes]

/-- C6: when the ticker samples an elapsed time that has reached the
duration while playing, the tick stops the player (transitioning to the
stopped state), does not re-arm the animation frame, and the emitted
trace contains exactly one onPlayStateChange(false). -/
theorem C6_tick_autostop (s : PlayerState)
    (hp : s.isPlaying = true) (hd : s.duration ≤ getCurrentTime s) :
    (tick s).1 = (stop s).1 ∧
    (tick s).1.isPlaying = false ∧
    (tick s).1.isPaused = false ∧
    (tick s).1.tickerArmed = false ∧
    (tick s).2.2 = false ∧
    (tick s).2.1.count (Event.playState false) = 1 ∧
    (tick (tick s).1).2.1 = [] ∧
    (tick (tick s).1).2.2 = false := by
  refine ⟨?_, ?_, ?_, ?_, ?_, ?_, ?_, ?_⟩ <;>
    simp [tick, hp, hd, stop, clearScheduled, List.count_cons]

/-- C6 witness: the auto-stop contract instantiated at the playing state
`s2`, whose transport clock (3) has passed the duration (2). -/
theorem C6_tick_autostop_witness :
    (s2.isPlaying = true ∧ s2.duration ≤ getCurrentTime s2) ∧
    ((tick s2).1 = (stop s2).1 ∧
     (tick s2).1.isPlaying = false ∧
     (tick s2).1.isPaused = false ∧
     (tick s2).1.tickerArmed = false ∧
     (tick s2).2.2 = false ∧
     (tick s2).2.1.count (Event.playState false) = 1 ∧
     (tick (tick s2).1).2.1 = [] ∧
     (tick (tick s2).1).2.2 = false) :=
  ⟨⟨rfl, by norm_num [s2, s0, getCurrentTime]⟩,
   C6_tick_autostop s2 rfl (by norm_num [s2, s0, getCurrentTime])⟩

/-- C7: when fetching or decoding fails, loadTrack fires onLoadStart
first and onLoadEnd last, the failure propagates to the caller, and the
previously loaded note list, duration and primeDuration are unchanged. -/
theorem C7_loadTrack_failure :
    ∀ (s : PlayerState),
      (loadTrack s none).1.notes = s.notes ∧
      (loadTrack s none).1.duration = s.duration ∧
      (loadTrack s none).1.primeDuration = s.primeDuration ∧
      (loadTrack s none).2.2 = false ∧
      (loadTrack s none).2.1.head? = some .loadStart ∧
      (loadTrack s none).2.1.getLast? = some .loadEnd := by
  intro s
  refine ⟨?_, ?_, ?_, ?_, ?_, ?_⟩ <;>
    simp [loadTrack, stop, clearScheduled]

/-- C8: the fill opacity the renderer computes for an idle note is
monotone non-decreasing in the note velocity. -/
theorem C8_idle_opacity_monotone (currentTime : ℚ) (a b : Note)
    (ha : isActive currentTime a = false) (hb : isActive currentTime b = false)
    (hv : a.velocity ≤ b.velocity) :
    fillAlpha currentTime a ≤ fillAlpha currentTime b := by
  simp only [fillAlpha, ha, hb, if_false, idleAlpha, Bool.false_eq_true]
  linarith

/-- C8 witness: at cursor time 10 both `n0` and `n1` are idle and their
opacities are ordered with their velocities. -/
theorem C8_idle_opacity_witness :
    (isActive 10 n0 = false ∧ isActive 10 n1 = false ∧
     n0.velocity ≤ n1.velocity) ∧
    fillAlpha 10 n0 ≤ fillAlpha 10 n1 :=
  ⟨⟨by norm_num [isActive, n0], by norm_num [isActive, n1], by norm_num [n0, n1]⟩,
   C8_idle_opacity_monotone 10 n0 n1 (by norm_num [isActive, n0])
     (by norm_num [isActive, n1]) (by norm_num [n0, n1])⟩

/-- C9: while playing, getCurrentTime() returns the minimum of the
transport clock and the loaded duration, and hence never exceeds the
duration. -/
theorem C9_currentTime_capped (s : PlayerState) (h : s.isPlaying = true) :
    getCurrentTime s = min s.transportSeconds s.duration ∧
    getCurrentTime s ≤ s.duration := by
  rw [getCurrentTime, if_pos h]
  exact ⟨rfl, min_le_right _ _⟩

/-- C9 witness: the cap instantiated at the playing state `s2`. -/
theorem C9_currentTime_capped_witness :
    s2.isPlaying = true ∧
    (getCurrentTime s2 = min s2.transportSeconds s2.duration ∧
     getCurrentTime s2 ≤ s2.duration) :=
  ⟨rfl, C9_currentTime_capped s2 rfl⟩

/-- C10: seeking while stopped leaves the player paused at the clamped
time, and the next play() (on a nonempty note list) starts the transport
from that clamped time rather than from 0. -/
theorem C10_seek_while_stopped (s : PlayerState) (t : ℚ)
    (h1 : s.isPlaying = false) (h2 : s.isPaused = false) (hn : s.notes ≠ []) :
    (seek s t).1.isPaused = true ∧
    (seek s t).1.isPlaying = false ∧
    (seek s t).1.pausedTime = max 0 (min t s.duration) ∧
    (play (seek s t).1).1.transportSeconds = max 0 (min t s.duration) ∧
    (play (seek s t).1).2 =
      [.transportStop, .transportStart (max 0 (min t s.duration)), .playState true] := by
  have he : s.notes.isEmpty = false := by
    cases hni : s.notes with
    | nil => exact absurd hni hn
    | cons a l => simp [hni]
  refine ⟨?_, ?_, ?_, ?_, ?_⟩ <;>
    simp [seek, play, h1, he, scheduleFrom, clearScheduled]

/-- C10 witness: seeking the stopped state `s0` to 1 pauses at 1 and the
following play() starts the transport at 1. -/
theorem C10_seek_while_stopped_witness :
    (s0.isPlaying = false ∧ s0.isPaused = false ∧ s0.notes ≠ []) ∧
    ((seek s0 1).1.isPaused = true ∧
     (seek s0 1).1.isPlaying = false ∧
     (seek s0 1).1.pausedTime = max 0 (min 1 s0.duration) ∧
     (play (seek s0 1).1).1.transportSeconds = max 0 (min 1 s0.duration) ∧
     (play (seek s0 1).1).2 =
       [.transportStop, .transportStart (max 0 (min 1 s0.duration)), .playState true]) :=
  ⟨⟨rfl, rfl, by simp [s0]⟩, C10_seek_while_stopped s0 1 rfl rfl (by simp [s0])⟩

end MidiViz
